import Mathlib

/-!
Verification development for the rotation/backoff/quarantine scheduling engine
of `server.py` (Chrome profile fleet manager).  The Python source is shallowly
embedded: module-level dictionaries become association lists, `time.time()`
becomes an explicit `now : ℤ` parameter (the engine only adds to and compares timestamps, so integer instants model the Python float clock exactly for every claim), the `secrets` random draws become
explicit parameters quantified in the theorems, and exceptions in the refresh
action become an explicit boolean outcome.
-/

/-! ### Configuration (the `SAFETY` dict, src/server.py lines 51-66) -/

namespace SAFETY

def base_cycle_minutes : ℕ := 32

def max_profiles_per_cycle : ℕ := 1000

def min_delay_seconds : ℕ := 60

def jitter_seconds : ℕ := 480

def long_break_chance_pct : ℕ := 8

def failure_quarantine_threshold : ℕ := 3

def failure_backoff_base : ℕ := 60 * 2

def active_hours_start : ℕ := 8

def active_hours_end : ℕ := 23

def rotation_groups : ℕ := 3

end SAFETY

/-! ### Per-profile health record (`_profile_state` entries, lines 278-283).
Timestamps (`time.time()` floats) are modelled as integer instants; the failure
counter is a Python int and every value the engine stores in it is
non-negative, so it is modelled as `ℕ`. -/

structure HealthRecord where
  last_refresh : ℤ
  failures : ℕ
  next_allowed : ℤ
  quarantined : Bool
deriving DecidableEq

/-- Default record created lazily by `_ensure_profile_state` (line 282). -/
def defaultRecord : HealthRecord :=
  { last_refresh := 0, failures := 0, next_allowed := 0, quarantined := false }

/-! ### The profile-state dictionary as an association list.
`setSt` mirrors Python dict assignment: replace in place if the key is
present, append otherwise; `lookupSt` finds the first binding. -/

abbrev Store (β : Type) : Type := List (String × β)

def lookupSt {β : Type} : Store β → String → Option β
  | [], _ => none
  | (q, b) :: t, p => if q = p then some b else lookupSt t p

def setSt {β : Type} : Store β → String → β → Store β
  | [], p, b => [(p, b)]
  | (q, c) :: t, p, b => if q = p then (p, b) :: t else (q, c) :: setSt t p b

/-- `_ensure_profile_state` (lines 280-283): insert the default record if the
profile has no entry yet. -/
def _ensure_profile_state (m : Store HealthRecord) (p : String) : Store HealthRecord :=
  if (lookupSt m p).isSome then m else setSt m p defaultRecord

/-- The record `_ensure_profile_state` returns for `p` (after ensuring, the
lookup always succeeds; `defaultRecord` is the `getD` fallback). -/
def getRecord (m : Store HealthRecord) (p : String) : HealthRecord :=
  (lookupSt m p).getD defaultRecord

/-! ### Health policy (lines 285-308) -/

/-- `_mark_success` (lines 285-290): both `time.time()` calls are modelled by
the single instant `now`. -/
def _mark_success (st : HealthRecord) (now : ℤ) : HealthRecord :=
  { st with last_refresh := now, failures := 0, next_allowed := now, quarantined := false }

/-- `_mark_failure` (lines 292-300): increment the counter, compute the capped
exponential backoff, and set the quarantine flag once the threshold is
reached (the flag is left as-is below the threshold). -/
def _mark_failure (st : HealthRecord) (now : ℤ) : HealthRecord :=
  let failures := st.failures + 1
  let backoff := min (SAFETY.failure_backoff_base * 2 ^ (failures - 1)) (60 * 60 * 24)
  { st with
      failures := failures,
      next_allowed := now + (backoff : ℤ),
      quarantined := if SAFETY.failure_quarantine_threshold ≤ failures then true else st.quarantined }

/-- `_is_allowed_to_refresh` (lines 302-308), record-level core (the Python
function first ensures the record exists; callers below do the ensure). -/
def _is_allowed_to_refresh (st : HealthRecord) (now : ℤ) : Bool × Option String :=
  if st.quarantined then (false, some "quarantined")
  else if now < st.next_allowed then (false, some "backoff")
  else (true, none)

/-! ### Cadence planner (lines 311-330) -/

/-- `_is_within_active_hours` (lines 314-320) with the current hour passed
explicitly. -/
def _is_within_active_hours (hour : ℕ) : Bool :=
  let start := SAFETY.active_hours_start
  let stop := SAFETY.active_hours_end
  if start ≤ stop then decide (start ≤ hour ∧ hour < stop)
  else decide (start ≤ hour ∨ hour < stop)

/-- `_compute_delay_per_profile` (lines 322-330).  The jitter draw
`secrets.randbelow(2*jitter_seconds+1) - jitter_seconds` is passed in as
`jitter`; Python `//` is `Int.fdiv`; `int(delay * 1.5)` on the non-negative
`delay` is `(3 * delay).fdiv 2`. -/
def _compute_delay_per_profile (total_profiles : ℤ) (jitter : ℤ) (hour : ℕ) : ℤ :=
  if total_profiles ≤ 0 then (SAFETY.min_delay_seconds : ℤ)
  else
    let base : ℤ :=
      max (SAFETY.min_delay_seconds : ℤ) (Int.fdiv ((SAFETY.base_cycle_minutes : ℤ) * 60) total_profiles)
    let delay : ℤ := max (SAFETY.min_delay_seconds : ℤ) (base + jitter)
    if _is_within_active_hours hour then delay else Int.fdiv (3 * delay) 2

/-! ### Rotation partitioner (lines 349-358) -/

/-- `_compute_rotation_groups` (lines 349-358): contiguous chunks of size
`ceil(total / n)` (`(total + n - 1) / n` in `ℕ`), padded with trailing empty
groups (the Python `while` pad is dead code since the comprehension already
yields `n` groups). -/
def _compute_rotation_groups {α : Type} (profiles : List α) (g : ℕ) : List (List α) :=
  let n := max 1 g
  let total := profiles.length
  if total = 0 then List.replicate n []
  else
    let chunk := (total + n - 1) / n
    let groups := (List.range n).map (fun i => (profiles.drop (i * chunk)).take chunk)
    groups ++ List.replicate (n - groups.length) []

/-! ### Cycle executor (`_safe_refresh_cycle_once` lines 459-481, and the
identical per-entity loop body of `_refresh_worker` lines 389-416).
The random draws (`_should_take_long_break`, `_should_do_interaction`) and
the outcome of the simulated refresh (the `try`/`except` around it) are
captured per entity in a `PassEvent`. -/

structure PassEvent where
  longBreak : Bool
  breakExtra : ℤ
  interact : Bool
  refreshOk : Bool
deriving DecidableEq

inductive StepKind where
  | ineligible
  | longBreak
  | success
  | failure
deriving DecidableEq

/-- What happened to one entity during a pass, and how long the executor
slept after it (`none` = the `continue` skipped the `time.sleep`). -/
structure StepEntry where
  name : String
  kind : StepKind
  sleptFor : Option ℤ
deriving DecidableEq

/-- One iteration of the per-entity loop (lines 459-480): eligibility check,
long-break draw, refresh attempt, then `time.sleep(delay_per_profile)` —
which the two `continue` statements skip. -/
def passStep (delay : ℤ) (now : ℤ) (m : Store HealthRecord) (p : String) (ev : PassEvent) :
    Store HealthRecord × ℕ × StepEntry :=
  let m1 := _ensure_profile_state m p
  let st := getRecord m1 p
  if !(_is_allowed_to_refresh st now).1 then
    (m1, 0, ⟨p, .ineligible, none⟩)
  else if ev.longBreak then
    (setSt m1 p { st with next_allowed := now + ev.breakExtra }, 0, ⟨p, .longBreak, none⟩)
  else if ev.refreshOk then
    (setSt m1 p (_mark_success st now), 1, ⟨p, .success, some delay⟩)
  else
    (setSt m1 p (_mark_failure st now), 0, ⟨p, .failure, some delay⟩)

/-- The whole per-entity loop of one pass over a (size-capped) group:
threads the profile store, counts `refreshed`, and records a trace entry per
entity. -/
def runPass (delay : ℤ) (now : ℤ) :
    Store HealthRecord → List (String × PassEvent) → Store HealthRecord × ℕ × List StepEntry
  | m, [] => (m, 0, [])
  | m, (p, ev) :: rest =>
    let r1 := passStep delay now m p ev
    let r2 := runPass delay now r1.1 rest
    (r2.1, r1.2.1 + r2.2.1, r1.2.2 :: r2.2.2)

/-- The spec sentence C2 formalised as stated: in a pass, every entity not
skipped for ineligibility (so also one that merely took a long break) incurs
the uniform throttle sleep, and ineligible entities incur none. -/
def uniformSleepClaim (delay : ℤ) (now : ℤ) (m : Store HealthRecord)
    (events : List (String × PassEvent)) : Prop :=
  ∀ e ∈ (runPass delay now m events).2.2,
    e.sleptFor = if e.kind = StepKind.ineligible then none else some delay

/-! ### Rotation state and whole-engine state (lines 343-347, 43-44, 278) -/

structure RotationState where
  groups : ℕ
  last_group : ℤ
  last_cycle_ts : ℤ
deriving DecidableEq

/-- Initial `_rotation_state` (lines 343-347). -/
def initialRotation : RotationState :=
  { groups := SAFETY.rotation_groups, last_group := -1, last_cycle_ts := 0 }

/-- The mutable module-level state the persistence layer snapshots:
`_rotation_state`, `_profile_state`, `profile_proxies`. -/
structure EngineState where
  rotation : RotationState
  profiles : Store HealthRecord
  proxies : Store String
deriving DecidableEq

/-- State at process start: default rotation, empty dictionaries. -/
def initialState : EngineState :=
  { rotation := initialRotation, profiles := [], proxies := [] }

/-! ### Persistence (lines 88-125).  The JSON file's numeric fields are
modelled as integers; `_load_state` re-applies the `float(...)` / `int(...)`
/ `bool(...)` coercions, which on the engine's own well-typed saved values
are the identity (`pyFloat` / `pyInt` below). -/

structure SavedRecord where
  last_refresh : ℤ
  failures : ℤ
  next_allowed : ℤ
  quarantined : Bool
deriving DecidableEq

/-- The dict `_save_state` (lines 112-125) writes for one profile. -/
def toSaved (r : HealthRecord) : SavedRecord :=
  { last_refresh := r.last_refresh, failures := (r.failures : ℤ),
    next_allowed := r.next_allowed, quarantined := r.quarantined }

/-- `float(...)` on an engine timestamp: the identity on the modelled value. -/
def pyFloat (x : ℤ) : ℤ := x

/-- `int(...)` on an engine failure count (non-negative), landing in `ℕ`. -/
def pyInt (x : ℤ) : ℕ := x.toNat

/-- One entry of `saved_profiles` pushed through the coercions of
`_load_state` lines 101-106. -/
def ofSaved (v : SavedRecord) : HealthRecord :=
  { last_refresh := pyFloat v.last_refresh, failures := pyInt v.failures,
    next_allowed := pyFloat v.next_allowed, quarantined := v.quarantined }

/-- On-disk snapshot shape (lines 115-120): rotation state, per-profile
dicts, proxies, and a `ts` stamp that `_load_state` ignores. -/
structure Snapshot where
  rotation_state : RotationState
  profile_state : Store SavedRecord
  profile_proxies : Store String
  ts : ℤ
deriving DecidableEq

/-- `_save_state` (lines 112-125). -/
def _save_state (s : EngineState) (now : ℤ) : Snapshot :=
  { rotation_state := s.rotation,
    profile_state := s.profiles.map (fun pr => (pr.1, toSaved pr.2)),
    profile_proxies := s.proxies,
    ts := now }

/-- `_load_state` (lines 88-110) as run at boot: the globals start from
`initialState` (empty dicts, default rotation), the saved rotation dict
fully overwrites the default, and each saved profile / proxy entry is
inserted in file order with the type coercions applied. -/
def _load_state (snap : Snapshot) : EngineState :=
  { rotation := snap.rotation_state,
    profiles := snap.profile_state.foldl (fun m pr => setSt m pr.1 (ofSaved pr.2)) [],
    proxies := snap.profile_proxies.foldl (fun m pr => setSt m pr.1 pr.2) [] }

/-! ### The engine's operations on health state, for the reachability
invariant: lazy default creation, success, failure, long break (lines
400-404 / 466-470), explicit quarantine reset (`api_quarantine_reset`,
lines 581-595), and a save/load round trip. -/

/-- `api_quarantine_reset` core (lines 588-593): `404` (`none`) for an
unknown profile, otherwise clear failures, eligibility and the flag in
place. -/
def api_quarantine_reset (m : Store HealthRecord) (p : String) : Option (Store HealthRecord) :=
  match lookupSt m p with
  | none => none
  | some r => some (setSt m p { r with failures := 0, next_allowed := 0, quarantined := false })

inductive Op where
  | ensure (p : String)
  | success (p : String) (now : ℤ)
  | failure (p : String) (now : ℤ)
  | longBreak (p : String) (now extra : ℤ)
  | reset (p : String)
  | saveLoad (now : ℤ)

/-- Effect of each operation on the engine state, as the source performs it
(the health mutators first ensure the record exists). -/
def applyOp (s : EngineState) : Op → EngineState
  | .ensure p => { s with profiles := _ensure_profile_state s.profiles p }
  | .success p now =>
    let m := _ensure_profile_state s.profiles p
    { s with profiles := setSt m p (_mark_success (getRecord m p) now) }
  | .failure p now =>
    let m := _ensure_profile_state s.profiles p
    { s with profiles := setSt m p (_mark_failure (getRecord m p) now) }
  | .longBreak p now extra =>
    let m := _ensure_profile_state s.profiles p
    { s with profiles := setSt m p { getRecord m p with next_allowed := now + extra } }
  | .reset p =>
    match api_quarantine_reset s.profiles p with
    | none => s
    | some m2 => { s with profiles := m2 }
  | .saveLoad now => _load_state (_save_state s now)

/-- States reachable from process start through the engine's operations. -/
inductive Reachable : EngineState → Prop where
  | init : Reachable initialState
  | step (s : EngineState) (op : Op) : Reachable s → Reachable (applyOp s op)

/-! ### Store lemmas shared by the theorems below -/

lemma lookupSt_setSt_self {β : Type} (m : Store β) (p : String) (b : β) :
    lookupSt (setSt m p b) p = some b := by
  induction m with
  | nil => simp [setSt, lookupSt]
  | cons hd t ih =>
    obtain ⟨q, c⟩ := hd
    by_cases h : q = p
    · simp [setSt, h, lookupSt]
    · simp [setSt, h, lookupSt, ih]

lemma lookupSt_setSt_ne {β : Type} (m : Store β) (p k : String) (b : β) (hk : k ≠ p) :
    lookupSt (setSt m p b) k = lookupSt m k := by
  have hpk : p ≠ k := Ne.symm hk
  induction m with
  | nil => simp [setSt, lookupSt, hpk]
  | cons hd t ih =>
    obtain ⟨q, c⟩ := hd
    by_cases h : q = p
    · subst h
      simp [setSt, lookupSt, hpk]
    · by_cases h2 : q = k <;> simp [setSt, h, lookupSt, h2, ih, hk]

lemma lookupSt_mem {β : Type} (m : Store β) (p : String) (b : β)
    (h : lookupSt m p = some b) : (p, b) ∈ m := by
  induction m with
  | nil => simp [lookupSt] at h
  | cons hd t ih =>
    obtain ⟨q, c⟩ := hd
    by_cases hq : q = p
    · subst hq
      simp [lookupSt] at h
      simp [h]
    · simp [lookupSt, hq] at h
      exact List.mem_cons_of_mem _ (ih h)

lemma setSt_of_lookup_none {β : Type} (m : Store β) (p : String) (b : β)
    (h : lookupSt m p = none) : setSt m p b = m ++ [(p, b)] := by
  induction m with
  | nil => simp [setSt]
  | cons hd t ih =>
    obtain ⟨q, c⟩ := hd
    by_cases hq : q = p
    · simp [lookupSt, hq] at h
    · simp [lookupSt, hq] at h
      simp [setSt, hq, ih h]

lemma lookupSt_append_none {β : Type} (m : Store β) (p k : String) (b : β)
    (h : lookupSt m k = none) (hk : k ≠ p) : lookupSt (m ++ [(p, b)]) k = none := by
  have hpk : p ≠ k := Ne.symm hk
  induction m with
  | nil => simp [lookupSt, hpk]
  | cons hd t ih =>
    obtain ⟨q, c⟩ := hd
    by_cases hq : q = k
    · simp [lookupSt, hq] at h
    · simp [lookupSt, hq] at h ⊢
      exact ih h

lemma foldl_setSt_eq {β : Type} (L : List (String × β)) :
    ∀ m : Store β, (∀ k ∈ L.map Prod.fst, lookupSt m k = none) →
    (L.map Prod.fst).Nodup →
    L.foldl (fun acc pr => setSt acc pr.1 pr.2) m = m ++ L := by
  induction L with
  | nil => intro m _ _; simp
  | cons hd rest ih =>
    intro m hnone hnd
    obtain ⟨p, b⟩ := hd
    simp only [List.map_cons, List.nodup_cons, List.mem_cons] at hnd
    have hp : lookupSt m p = none := hnone p (by simp)
    have step : setSt m p b = m ++ [(p, b)] := setSt_of_lookup_none m p b hp
    have hrest : ∀ k ∈ rest.map Prod.fst, lookupSt (m ++ [(p, b)]) k = none := by
      intro k hk
      exact lookupSt_append_none m p k b (hnone k (by simp [hk]))
        (fun h => hnd.1 (h ▸ hk))
    calc ((p, b) :: rest).foldl (fun acc pr => setSt acc pr.1 pr.2) m
        = rest.foldl (fun acc pr => setSt acc pr.1 pr.2) (m ++ [(p, b)]) := by
          simp [List.foldl_cons, step]
      _ = (m ++ [(p, b)]) ++ rest := ih (m ++ [(p, b)]) hrest hnd.2
      _ = m ++ ((p, b) :: rest) := by simp

/-- Every value stored in `m` satisfies `P`. -/
def StoreAll (P : HealthRecord → Prop) (m : Store HealthRecord) : Prop :=
  ∀ pr ∈ m, P pr.2

lemma storeAll_setSt {P : HealthRecord → Prop} {m : Store HealthRecord} {p : String}
    {b : HealthRecord} (hm : StoreAll P m) (hb : P b) : StoreAll P (setSt m p b) := by
  induction m with
  | nil =>
    intro pr hpr
    simp [setSt] at hpr
    simp [hpr, hb]
  | cons hd t ih =>
    obtain ⟨q, c⟩ := hd
    intro pr hpr
    by_cases hq : q = p
    · simp [setSt, hq] at hpr
      rcases hpr with h | h
      · simp [h, hb]
      · exact hm pr (List.mem_cons_of_mem _ h)
    · simp only [setSt, if_neg hq, List.mem_cons] at hpr
      rcases hpr with h | h
      · exact hm pr (h ▸ List.mem_cons_self _ _)
      · exact ih (fun x hx => hm x (List.mem_cons_of_mem _ hx)) pr h

lemma storeAll_ensure {P : HealthRecord → Prop} {m : Store HealthRecord} {p : String}
    (hm : StoreAll P m) (hd : P defaultRecord) : StoreAll P (_ensure_profile_state m p) := by
  unfold _ensure_profile_state
  split
  · exact hm
  · exact storeAll_setSt hm hd

lemma getRecord_prop {P : HealthRecord → Prop} {m : Store HealthRecord} {p : String}
    (hm : StoreAll P m) (hd : P defaultRecord) : P (getRecord m p) := by
  unfold getRecord
  cases h : lookupSt m p with
  | none => simpa using hd
  | some r => simpa using hm (p, r) (lookupSt_mem m p r h)

lemma storeAll_foldl_setSt {P : HealthRecord → Prop} (L : List (String × HealthRecord)) :
    ∀ m : Store HealthRecord, StoreAll P m → (∀ pr ∈ L, P pr.2) →
    StoreAll P (L.foldl (fun acc pr => setSt acc pr.1 pr.2) m) := by
  induction L with
  | nil => intro m hm _; simpa using hm
  | cons hd rest ih =>
    intro m hm hL
    simp only [List.foldl_cons]
    exact ih (setSt m hd.1 hd.2) (storeAll_setSt hm (hL hd (by simp)))
      (fun pr hpr => hL pr (List.mem_cons_of_mem _ hpr))

/-- The per-record save/load round trip: the `float` / `int` / `bool`
coercions of `_load_state` are the identity on values the engine saved. -/
lemma ofSaved_toSaved (r : HealthRecord) : ofSaved (toSaved r) = r := by
  cases r
  simp [ofSaved, toSaved, pyFloat, pyInt]

/-! ### C3: success handling -/

/-- C3: for every health record and time, `_mark_success` sets
`last_refresh` to now, resets `failures` to exactly 0, sets `next_allowed`
to now (immediately eligible), and sets `quarantined` to false — a success
lifts quarantine even from an arbitrarily failed, quarantined record. -/
theorem mark_success_resets (st : HealthRecord) (now : ℤ) :
    (_mark_success st now).last_refresh = now ∧
    (_mark_success st now).failures = 0 ∧
    (_mark_success st now).next_allowed = now ∧
    (_mark_success st now).quarantined = false := by
  simp [_mark_success]

/-! ### C1: failure handling -/

/-- C1 counterexample: on a record that is quarantined with failure count 0
(violating the engine invariant, but a health record nonetheless),
`_mark_failure` leaves `quarantined = true` although the new failure count 1
is below the threshold 3 — so "quarantined is set to true exactly when the
new count reaches the threshold" fails for that record. -/
theorem mark_failure_flag_cex :
    (_mark_failure (⟨0, 0, 0, true⟩ : HealthRecord) 0).quarantined = true ∧
    ¬ SAFETY.failure_quarantine_threshold ≤
      (_mark_failure (⟨0, 0, 0, true⟩ : HealthRecord) 0).failures := by
  decide

/-- C1 (amended): for every health record satisfying the engine invariant
(quarantined implies failures already at the threshold) and every time,
`_mark_failure` increments `failures` by exactly 1, sets `next_allowed` to
`now + min(86400, base * 2^(k-1))` with `k` the new count and `base` the
configured 120 s, and ends with `quarantined = true` iff the new count is at
least the threshold 3.  It is a pure function of the record, the time and
the configuration — no randomness. -/
theorem mark_failure_characterized (st : HealthRecord) (now : ℤ)
    (hinv : st.quarantined = true → SAFETY.failure_quarantine_threshold ≤ st.failures) :
    (_mark_failure st now).failures = st.failures + 1 ∧
    (_mark_failure st now).next_allowed =
      now + ((min 86400 (SAFETY.failure_backoff_base * 2 ^ (st.failures + 1 - 1)) : ℕ) : ℤ) ∧
    ((_mark_failure st now).quarantined = true ↔
      SAFETY.failure_quarantine_threshold ≤ st.failures + 1) := by
  refine ⟨rfl, ?_, ?_⟩
  · simp [_mark_failure, Nat.min_comm]
  · by_cases hth : SAFETY.failure_quarantine_threshold ≤ st.failures + 1
    · simp [_mark_failure, hth]
    · simp only [_mark_failure, if_neg hth]
      constructor
      · intro h
        exact absurd (Nat.le_succ_of_le (hinv h)) hth
      · intro h
        exact absurd h hth

/-- C1 witness: the amended theorem applied to the default record at
time 5 (first failure: backoff 120 s, no quarantine). -/
theorem mark_failure_characterized_witness :
    (defaultRecord.quarantined = true →
      SAFETY.failure_quarantine_threshold ≤ defaultRecord.failures) ∧
    ((_mark_failure defaultRecord 5).failures = defaultRecord.failures + 1 ∧
     (_mark_failure defaultRecord 5).next_allowed =
       5 + ((min 86400 (SAFETY.failure_backoff_base * 2 ^ (defaultRecord.failures + 1 - 1)) : ℕ) : ℤ) ∧
     ((_mark_failure defaultRecord 5).quarantined = true ↔
       SAFETY.failure_quarantine_threshold ≤ defaultRecord.failures + 1)) :=
  ⟨by decide, mark_failure_characterized defaultRecord 5 (by decide)⟩

/-! ### C10: delay for an empty group -/

/-- C10: for every non-positive `total_profiles`, the delay computation
returns exactly the configured 60 s minimum, for every jitter draw and every
hour — both the jitter and the out-of-hours multiplier are bypassed. -/
theorem compute_delay_nonpositive_total (total jitter : ℤ) (hour : ℕ) (h : total ≤ 0) :
    _compute_delay_per_profile total jitter hour = (SAFETY.min_delay_seconds : ℤ) ∧
    SAFETY.min_delay_seconds = 60 := by
  refine ⟨?_, rfl⟩
  simp [_compute_delay_per_profile, h]

/-- C10 witness: an empty group with a large jitter draw at night still
yields exactly 60. -/
theorem compute_delay_nonpositive_total_witness :
    (0 : ℤ) ≤ 0 ∧
    (_compute_delay_per_profile 0 444 2 = (SAFETY.min_delay_seconds : ℤ) ∧
     SAFETY.min_delay_seconds = 60) :=
  ⟨by decide, compute_delay_nonpositive_total 0 444 2 (by decide)⟩

/-! ### C7: the cadence formula -/

/-- The cadence formula exactly as the spec states it, over the rationals:
true division for the base and a literal multiplication by 1.5 outside the
active-hours window. -/
def perEntityDelay_specFormula (groupSize : ℤ) (jitter : ℚ) (hour : ℕ) : ℚ :=
  let base : ℚ :=
    max (SAFETY.min_delay_seconds : ℚ) ((SAFETY.base_cycle_minutes * 60 : ℚ) / ((max 1 groupSize : ℤ) : ℚ))
  let delay : ℚ := max (SAFETY.min_delay_seconds : ℚ) (base + jitter)
  if _is_within_active_hours hour then delay else delay * 1.5

/-- C7 counterexample: at group size 7, jitter 0, hour 12 (inside active
hours) the code returns `1920 // 7 = 274` while the spec formula's true
division gives `1920 / 7 = 274.28…` — the code floor-divides, so the delay
does not equal the spec formula as literally stated. -/
theorem compute_delay_spec_formula_cex :
    ((_compute_delay_per_profile 7 0 12 : ℤ) : ℚ) ≠ perEntityDelay_specFormula 7 0 12 := by
  have h1 : _compute_delay_per_profile 7 0 12 = 274 := by decide
  have h2 : perEntityDelay_specFormula 7 0 12 = 1920 / 7 := by
    unfold perEntityDelay_specFormula
    norm_num [_is_within_active_hours, SAFETY.min_delay_seconds, SAFETY.base_cycle_minutes,
      SAFETY.active_hours_start, SAFETY.active_hours_end]
  rw [h1, h2]
  norm_num

/-- The spec's cadence formula with the two divisions as the code performs
them: floor division for the base, and the out-of-hours 1.5 factor truncated
to an integer (`int(delay * 1.5)` on a non-negative delay). -/
def perEntityDelay_intFormula (groupSize jitter : ℤ) (hour : ℕ) : ℤ :=
  let base : ℤ :=
    max (SAFETY.min_delay_seconds : ℤ) (Int.fdiv ((SAFETY.base_cycle_minutes : ℤ) * 60) (max 1 groupSize))
  let delay : ℤ := max (SAFETY.min_delay_seconds : ℤ) (base + jitter)
  if _is_within_active_hours hour then delay else Int.fdiv (3 * delay) 2

/-- C7 (amended): for every group size ≥ 1 and every jitter draw in
[-480, 480], the code's delay equals the spec formula computed with floor
division and with the out-of-hours 1.5 multiplication truncated to an
integer; the result is always at least the 60 s minimum. -/
theorem compute_delay_matches_int_formula (groupSize jitter : ℤ) (hour : ℕ)
    (hg : 1 ≤ groupSize)
    (_hj1 : -(SAFETY.jitter_seconds : ℤ) ≤ jitter) (_hj2 : jitter ≤ (SAFETY.jitter_seconds : ℤ)) :
    _compute_delay_per_profile groupSize jitter hour = perEntityDelay_intFormula groupSize jitter hour ∧
    (SAFETY.min_delay_seconds : ℤ) ≤ _compute_delay_per_profile groupSize jitter hour := by
  have hpos : ¬ groupSize ≤ 0 := by omega
  have hmax : max 1 groupSize = groupSize := max_eq_right hg
  constructor
  · simp [_compute_delay_per_profile, perEntityDelay_intFormula, hmax, hpos]
  · unfold _compute_delay_per_profile
    rw [if_neg hpos]
    set base : ℤ :=
      max (SAFETY.min_delay_seconds : ℤ) (Int.fdiv ((SAFETY.base_cycle_minutes : ℤ) * 60) groupSize) with hbase
    set delay : ℤ := max (SAFETY.min_delay_seconds : ℤ) (base + jitter) with hdelay
    have hd : (SAFETY.min_delay_seconds : ℤ) ≤ delay := le_max_left _ _
    split
    · exact hd
    · rw [Int.fdiv_eq_ediv _ (by norm_num)]
      have h60 : (SAFETY.min_delay_seconds : ℤ) = 60 := rfl
      rw [h60] at hd ⊢
      omega

/-- C7 witness: the amended theorem applied at group size 7, jitter -100,
hour 2 (outside active hours): the code gives `(3 * 174) // 2 = 261`. -/
theorem compute_delay_matches_int_formula_witness :
    ((1 : ℤ) ≤ 7 ∧ -(SAFETY.jitter_seconds : ℤ) ≤ -100 ∧ (-100 : ℤ) ≤ (SAFETY.jitter_seconds : ℤ)) ∧
    (_compute_delay_per_profile 7 (-100) 2 = perEntityDelay_intFormula 7 (-100) 2 ∧
     (SAFETY.min_delay_seconds : ℤ) ≤ _compute_delay_per_profile 7 (-100) 2) :=
  ⟨⟨by decide, by decide, by decide⟩,
   compute_delay_matches_int_formula 7 (-100) 2 (by decide) (by decide) (by decide)⟩

/-! ### C8: quarantine reset -/

/-- C8: resetting quarantine for an id with no health record reports
not-found (`none`, the 404 branch) and no state is touched; for an existing
record it succeeds, zeroing `failures` and `next_allowed` and clearing
`quarantined`, while the record stays in the store and every other profile's
record is untouched. -/
theorem quarantine_reset_contract (m : Store HealthRecord) (p : String) :
    (lookupSt m p = none → api_quarantine_reset m p = none) ∧
    (∀ r, lookupSt m p = some r →
      api_quarantine_reset m p =
        some (setSt m p { r with failures := 0, next_allowed := 0, quarantined := false }) ∧
      lookupSt (setSt m p { r with failures := 0, next_allowed := 0, quarantined := false }) p =
        some { r with failures := 0, next_allowed := 0, quarantined := false } ∧
      (∀ q, q ≠ p →
        lookupSt (setSt m p { r with failures := 0, next_allowed := 0, quarantined := false }) q =
          lookupSt m q)) := by
  constructor
  · intro h
    simp [api_quarantine_reset, h]
  · intro r h
    exact ⟨by simp [api_quarantine_reset, h], lookupSt_setSt_self m p _,
      fun q hq => lookupSt_setSt_ne m p q _ hq⟩

/-- Concrete two-profile store for the C8 witness: `p1` quarantined after 5
failures, `p2` healthy. -/
def resetDemoStore : Store HealthRecord :=
  [("p1", { last_refresh := 1, failures := 5, next_allowed := 99, quarantined := true }),
   ("p2", { last_refresh := 2, failures := 0, next_allowed := 0, quarantined := false })]

/-- C8 witness: both branches of the contract evaluated on
`resetDemoStore`: unknown id `zz` yields not-found, resetting `p1` rewrites
exactly its record, and `p2`'s binding is untouched. -/
theorem quarantine_reset_contract_witness :
    api_quarantine_reset resetDemoStore "zz" = none ∧
    api_quarantine_reset resetDemoStore "p1" =
      some (setSt resetDemoStore "p1"
        { last_refresh := 1, failures := 0, next_allowed := 0, quarantined := false }) ∧
    lookupSt (setSt resetDemoStore "p1"
        { last_refresh := 1, failures := 0, next_allowed := 0, quarantined := false }) "p2" =
      lookupSt resetDemoStore "p2" :=
  ⟨(quarantine_reset_contract resetDemoStore "zz").1 (by decide),
   ((quarantine_reset_contract resetDemoStore "p1").2
     { last_refresh := 1, failures := 5, next_allowed := 99, quarantined := true } (by decide)).1,
   ((quarantine_reset_contract resetDemoStore "p1").2
     { last_refresh := 1, failures := 5, next_allowed := 99, quarantined := true } (by decide)).2.2
     "p2" (by decide)⟩

/-! ### C2: throttle sleep placement in the executor pass -/

/-- Per-entity step lemma: the sleep recorded by `passStep` is exactly the
uniform delay when the refresh was attempted (success or failure), and no
sleep otherwise — both `continue` paths skip `time.sleep`. -/
lemma passStep_entry_slept (delay now : ℤ) (m : Store HealthRecord) (p : String) (ev : PassEvent) :
    (passStep delay now m p ev).2.2.sleptFor =
      (if (passStep delay now m p ev).2.2.kind = StepKind.success ∨
          (passStep delay now m p ev).2.2.kind = StepKind.failure
       then some delay else none) := by
  cases hA : (_is_allowed_to_refresh (getRecord (_ensure_profile_state m p) p) now).1 with
  | false => simp [passStep, hA]
  | true =>
    cases hB : ev.longBreak with
    | true => simp [passStep, hA, hB]
    | false => cases hC : ev.refreshOk <;> simp [passStep, hA, hB, hC]

/-- C2 counterexample: with one eligible entity whose long-break draw
triggers, the pass records no sleep for it although it was not skipped for
ineligibility — the `continue` in the long-break branch skips
`time.sleep(delay_per_profile)`, refuting the claim that the throttle
applies uniformly to long-break skips. -/
theorem pass_uniform_sleep_cex :
    ¬ uniformSleepClaim 60 0 [] [("a", ⟨true, 100, false, true⟩)] := by
  intro h
  have hc := h ⟨"a", StepKind.longBreak, none⟩ (by decide)
  exact absurd hc (by decide)

/-- C2 (amended): in one executor pass, the per-entity throttle sleep of the
computed delay is performed exactly for the entities whose refresh was
attempted (outcome success or failure, uniformly the same delay); entities
skipped as ineligible AND entities skipped by the long-break draw incur no
sleep. -/
theorem pass_sleep_iff_refresh_attempted (delay now : ℤ)
    (events : List (String × PassEvent)) (m : Store HealthRecord) :
    ∀ e ∈ (runPass delay now m events).2.2,
      e.sleptFor =
        if e.kind = StepKind.success ∨ e.kind = StepKind.failure then some delay else none := by
  induction events generalizing m with
  | nil =>
    intro e he
    simp [runPass] at he
  | cons hd rest ih =>
    obtain ⟨p, ev⟩ := hd
    intro e he
    simp only [runPass, List.mem_cons] at he
    rcases he with h | h
    · subst h
      exact passStep_entry_slept delay now m p ev
    · exact ih _ e h

/-- C2 witness: a pass over one healthy entity that is refreshed
successfully records a sleep of exactly the 60 s delay for it. -/
theorem pass_sleep_iff_refresh_attempted_witness :
    (⟨"a", StepKind.success, some 60⟩ : StepEntry) ∈
      (runPass 60 0 [] [("a", ⟨false, 0, false, true⟩)]).2.2 ∧
    (⟨"a", StepKind.success, some 60⟩ : StepEntry).sleptFor =
      (if (⟨"a", StepKind.success, some 60⟩ : StepEntry).kind = StepKind.success ∨
          (⟨"a", StepKind.success, some 60⟩ : StepEntry).kind = StepKind.failure
       then some (60 : ℤ) else none) :=
  ⟨by decide,
   pass_sleep_iff_refresh_attempted 60 0 [("a", ⟨false, 0, false, true⟩)] []
     ⟨"a", StepKind.success, some 60⟩ (by decide)⟩

/-! ### C4: quarantine implies the failure counter reached the threshold -/

/-- The C4 invariant on one health record. -/
def QuarInv (r : HealthRecord) : Prop :=
  r.quarantined = true → SAFETY.failure_quarantine_threshold ≤ r.failures

lemma quarInv_default : QuarInv defaultRecord := by
  intro h
  simp [defaultRecord] at h

lemma quarInv_mark_success (st : HealthRecord) (now : ℤ) : QuarInv (_mark_success st now) := by
  intro h
  simp [_mark_success] at h

lemma quarInv_mark_failure (st : HealthRecord) (now : ℤ) (hst : QuarInv st) :
    QuarInv (_mark_failure st now) := by
  intro h
  show SAFETY.failure_quarantine_threshold ≤ st.failures + 1
  by_cases hth : SAFETY.failure_quarantine_threshold ≤ st.failures + 1
  · exact hth
  · have hq : st.quarantined = true := by
      have hunf : (_mark_failure st now).quarantined = st.quarantined := by
        simp [_mark_failure, hth]
      rw [hunf] at h
      exact h
    exact Nat.le_succ_of_le (hst hq)

lemma quarInv_set_next (st : HealthRecord) (t : ℤ) (hst : QuarInv st) :
    QuarInv { st with next_allowed := t } :=
  fun h => hst h

lemma quarInv_reset_record (r : HealthRecord) :
    QuarInv { r with failures := 0, next_allowed := 0, quarantined := false } := by
  intro h
  simp at h

/-- C4: in every state reachable through the engine's operations on health
records — lazy default creation, success, failure, long break, explicit
quarantine reset, and a save/load of the persisted snapshot — every record
with `quarantined = true` has at least `failure_quarantine_threshold = 3`
consecutive failures: the flag is never set independently of the counter. -/
theorem reachable_quarantine_invariant (s : EngineState) (hs : Reachable s) :
    ∀ pr ∈ s.profiles, pr.2.quarantined = true →
      SAFETY.failure_quarantine_threshold ≤ pr.2.failures := by
  induction hs with
  | init =>
    intro pr hpr
    simp [initialState] at hpr
  | step s0 op _ ih =>
    have ih2 : StoreAll QuarInv s0.profiles := ih
    have hens : ∀ p : String, StoreAll QuarInv (_ensure_profile_state s0.profiles p) :=
      fun _ => storeAll_ensure ih2 quarInv_default
    show StoreAll QuarInv (applyOp s0 op).profiles
    cases op with
    | ensure p => exact hens p
    | success p now => exact storeAll_setSt (hens p) (quarInv_mark_success _ now)
    | failure p now =>
      exact storeAll_setSt (hens p)
        (quarInv_mark_failure _ now (getRecord_prop (hens p) quarInv_default))
    | longBreak p now extra =>
      exact storeAll_setSt (hens p)
        (quarInv_set_next _ _ (getRecord_prop (hens p) quarInv_default))
    | reset p =>
      cases hl : lookupSt s0.profiles p with
      | none =>
        have hsame : (applyOp s0 (Op.reset p)).profiles = s0.profiles := by
          simp [applyOp, api_quarantine_reset, hl]
        rw [hsame]
        exact ih2
      | some r =>
        have hset : (applyOp s0 (Op.reset p)).profiles =
            setSt s0.profiles p { r with failures := 0, next_allowed := 0, quarantined := false } := by
          simp [applyOp, api_quarantine_reset, hl]
        rw [hset]
        exact storeAll_setSt ih2 (quarInv_reset_record r)
    | saveLoad now =>
      have hprof : (applyOp s0 (Op.saveLoad now)).profiles =
          (s0.profiles.map (fun pr => (pr.1, toSaved pr.2))).foldl
            (fun m pr => setSt m pr.1 (ofSaved pr.2)) [] := rfl
      rw [hprof, List.foldl_map]
      simp only [ofSaved_toSaved]
      exact storeAll_foldl_setSt s0.profiles [] (by intro pr hpr; simp at hpr) ih2

/-- C4 witness: three consecutive failures on profile `a` from the fresh
state produce a reachable state whose record for `a` is quarantined with
exactly 3 failures, and the invariant theorem applies to it. -/
theorem reachable_quarantine_invariant_witness :
    Reachable (applyOp (applyOp (applyOp initialState
      (Op.failure "a" 0)) (Op.failure "a" 0)) (Op.failure "a" 0)) ∧
    ("a", (⟨0, 3, 480, true⟩ : HealthRecord)) ∈
      (applyOp (applyOp (applyOp initialState
        (Op.failure "a" 0)) (Op.failure "a" 0)) (Op.failure "a" 0)).profiles ∧
    SAFETY.failure_quarantine_threshold ≤ (⟨0, 3, 480, true⟩ : HealthRecord).failures := by
  have h3 : Reachable (applyOp (applyOp (applyOp initialState
      (Op.failure "a" 0)) (Op.failure "a" 0)) (Op.failure "a" 0)) :=
    Reachable.step _ _ (Reachable.step _ _ (Reachable.step _ _ Reachable.init))
  refine ⟨h3, by decide, ?_⟩
  exact reachable_quarantine_invariant _ h3 ("a", (⟨0, 3, 480, true⟩ : HealthRecord))
    (by decide) (by decide)

/-! ### C5 and C9: the rotation partitioner -/

lemma flatten_replicate_nil {α : Type} (n : ℕ) :
    (List.replicate n ([] : List α)).flatten = [] := by
  induction n with
  | zero => rfl
  | succ k ih => simp [List.replicate_succ, ih]

lemma getD_replicate_nil {α : Type} (n i : ℕ) :
    (List.replicate n ([] : List α)).getD i [] = [] := by
  induction n generalizing i with
  | zero => simp [List.getD]
  | succ k ih =>
    cases i with
    | zero => simp [List.replicate_succ]
    | succ j => simp [List.replicate_succ, ih j]

/-- Concatenating the first `n` contiguous chunks of width `c` recovers the
first `n * c` elements. -/
lemma slice_flatten {α : Type} (c : ℕ) :
    ∀ (n : ℕ) (l : List α),
      ((List.range n).map (fun i => (l.drop (i * c)).take c)).flatten = l.take (n * c) := by
  intro n
  induction n with
  | zero => intro l; simp
  | succ k ih =>
    intro l
    rw [List.range_succ, List.map_append, List.flatten_append, ih l]
    simp only [List.map_cons, List.map_nil, List.flatten_cons, List.flatten_nil, List.append_nil]
    rw [← List.take_add]
    congr 1
    ring

/-- `n` chunks of width `ceil(t / n)` cover all `t` elements. -/
lemma le_mul_ceil (t n : ℕ) (hn : 1 ≤ n) : t ≤ n * ((t + n - 1) / n) := by
  have h := Nat.div_add_mod (t + n - 1) n
  have hlt : (t + n - 1) % n < n := Nat.mod_lt _ (by omega)
  omega

/-- The groups of `_compute_rotation_groups` concatenate, in order, to the
input list: sizes sum to the total and no element is duplicated or lost. -/
lemma rotation_groups_flatten {α : Type} (l : List α) (g : ℕ) :
    (_compute_rotation_groups l g).flatten = l := by
  unfold _compute_rotation_groups
  by_cases h0 : l.length = 0
  · rw [if_pos h0]
    rw [List.length_eq_zero.mp h0]
    exact flatten_replicate_nil _
  · rw [if_neg h0]
    simp only [List.length_map, List.length_range, Nat.sub_self, List.replicate_zero,
      List.append_nil]
    rw [slice_flatten]
    exact List.take_of_length_le (le_mul_ceil l.length (max 1 g) (le_max_left 1 g))

/-- Size of group `i`: `min(chunk, total - i*chunk)` where
`chunk = ceil(total / max 1 g)` — beyond the last chunk the groups are
empty. -/
lemma rotation_groups_sizes {α : Type} (l : List α) (g : ℕ) (i : ℕ) :
    ((_compute_rotation_groups l g).getD i []).length =
      min ((l.length + max 1 g - 1) / max 1 g)
        (l.length - i * ((l.length + max 1 g - 1) / max 1 g)) := by
  have hn1 : 1 ≤ max 1 g := le_max_left 1 g
  unfold _compute_rotation_groups
  by_cases h0 : l.length = 0
  · rw [if_pos h0, getD_replicate_nil]
    have hc : (l.length + max 1 g - 1) / max 1 g = 0 := by
      rw [h0]
      exact Nat.div_eq_of_lt (by omega)
    simp [hc]
  · rw [if_neg h0]
    simp only [List.length_map, List.length_range, Nat.sub_self, List.replicate_zero,
      List.append_nil]
    by_cases hi : i < max 1 g
    · rw [List.getD_eq_getElem?_getD, List.getElem?_map, List.getElem?_range hi]
      simp [List.length_take, List.length_drop]
    · rw [List.getD_eq_getElem?_getD, List.getElem?_map]
      rw [List.getElem?_eq_none (by simpa using Nat.le_of_not_lt hi)]
      have htot : l.length ≤ i * ((l.length + max 1 g - 1) / max 1 g) :=
        le_trans (le_mul_ceil l.length (max 1 g) hn1)
          (by
            rw [mul_comm (max 1 g), mul_comm i]
            exact Nat.mul_le_mul_left _ (Nat.le_of_not_lt hi))
      simp [Nat.sub_eq_zero_of_le htot]

/-- The C5 size clause exactly as the spec states it: all groups but
possibly the last have equal size to within plus-or-minus one. -/
def sizesWithinOne {α : Type} (gs : List (List α)) : Prop :=
  ∀ g1 ∈ gs.dropLast, ∀ g2 ∈ gs.dropLast, g1.length ≤ g2.length + 1

/-- C5 counterexample: partitioning 10 entities into 7 groups yields sizes
`[2,2,2,2,2,0,0]`; among the groups other than the last, a size-2 group and
a size-0 group differ by 2, so the "±1 among all but possibly the last"
clause fails at this input. -/
theorem rotation_groups_sizes_cex :
    ¬ sizesWithinOne (_compute_rotation_groups (List.range 10) 7) := by
  intro h
  exact absurd (h [0, 1] (by decide) [] (by decide)) (by decide)

/-- C5 (amended): partitioning is a pure function of the ordered entity list
and the configured group count (deterministic by construction); the returned
groups concatenate, in their order, to exactly the input list (so the sizes
sum to the total and no entity occurs in two groups); group `i` has size
`min(chunk, total - i*chunk)` with `chunk = ceil(total / max(1, N))` — every
non-empty group except possibly the last non-empty one has size exactly
`chunk`, while trailing groups are empty (so two non-last groups may differ
by more than 1 when `N` exceeds the number of chunks); and the spec's
example `partition(["a","b","c","d","e"], 3)` holds. -/
theorem rotation_groups_partition :
    (∀ (α : Type) (l : List α) (g : ℕ),
      (_compute_rotation_groups l g).flatten = l ∧
      ∀ i : ℕ, ((_compute_rotation_groups l g).getD i []).length =
        min ((l.length + max 1 g - 1) / max 1 g)
          (l.length - i * ((l.length + max 1 g - 1) / max 1 g))) ∧
    _compute_rotation_groups ["a", "b", "c", "d", "e"] 3 = [["a", "b"], ["c", "d"], ["e"]] :=
  ⟨fun _ l g => ⟨rotation_groups_flatten l g, fun i => rotation_groups_sizes l g i⟩, by decide⟩

/-- C9: the partitioner returns exactly `max 1 N` groups for every input
list — when the list is empty (or shorter than the group count) the result
is padded with trailing empty groups rather than shortened, so every
rotation-cursor index below the group count is a valid position in the
result. -/
theorem rotation_groups_count {α : Type} (l : List α) (g : ℕ) :
    (_compute_rotation_groups l g).length = max 1 g ∧
    _compute_rotation_groups ([] : List α) g = List.replicate (max 1 g) [] := by
  constructor
  · unfold _compute_rotation_groups
    by_cases h0 : l.length = 0
    · rw [if_pos h0]
      simp
    · rw [if_neg h0]
      simp
  · simp [_compute_rotation_groups]

/-! ### C6: snapshot round trip -/

/-- C6: for every valid engine state (a dict has no duplicate keys, hence
the `Nodup` hypotheses), loading the snapshot `_save_state` wrote — with the
`float` / `int` / `bool` coercions `_load_state` applies to every numeric
field — reproduces the original rotation state, health records and proxy
assignments exactly. -/
theorem load_save_roundtrip (s : EngineState) (now : ℤ)
    (hprof : (s.profiles.map Prod.fst).Nodup)
    (hprox : (s.proxies.map Prod.fst).Nodup) :
    _load_state (_save_state s now) = s := by
  obtain ⟨rot, profiles, proxies⟩ := s
  simp only at hprof hprox
  show EngineState.mk rot
      ((profiles.map (fun pr => (pr.1, toSaved pr.2))).foldl
        (fun m pr => setSt m pr.1 (ofSaved pr.2)) [])
      (proxies.foldl (fun m pr => setSt m pr.1 pr.2) []) =
    EngineState.mk rot profiles proxies
  have hpf : (profiles.map (fun pr => (pr.1, toSaved pr.2))).foldl
      (fun m pr => setSt m pr.1 (ofSaved pr.2)) [] = profiles := by
    rw [List.foldl_map]
    simp only [ofSaved_toSaved]
    rw [foldl_setSt_eq profiles [] (fun k _ => rfl) hprof]
    exact List.nil_append profiles
  have hpx : proxies.foldl (fun m pr => setSt m pr.1 pr.2) [] = proxies := by
    rw [foldl_setSt_eq proxies [] (fun k _ => rfl) hprox]
    exact List.nil_append proxies
  rw [hpf, hpx]

/-- Concrete state for the C6 witness: one quarantined entity `q`, one
backing-off entity `b`, one healthy entity `h2`, one proxy assignment, and a
non-default rotation cursor. -/
def roundtripDemoState : EngineState :=
  { rotation := { groups := 3, last_group := 1, last_cycle_ts := 50 },
    profiles :=
      [("q", ⟨10, 4, 900, true⟩), ("b", ⟨20, 1, 500, false⟩), ("h2", ⟨30, 0, 0, false⟩)],
    proxies := [("q", "http://127.0.0.1:8080")] }

/-- C6 witness: the round-trip theorem applied to `roundtripDemoState`
(saved with `ts = 42`). -/
theorem load_save_roundtrip_witness :
    ((roundtripDemoState.profiles.map Prod.fst).Nodup ∧
     (roundtripDemoState.proxies.map Prod.fst).Nodup) ∧
    _load_state (_save_state roundtripDemoState 42) = roundtripDemoState :=
  ⟨⟨by decide, by decide⟩, load_save_roundtrip roundtripDemoState 42 (by decide) (by decide)⟩
